import Mathlib

/-!
Verification of `csv_to_gee_points.py`.

The source program reads a delimited table with `pandas.read_csv`, rebinds the
column names to the row selected by `num_rows_before_header`, replaces commas
with dots in the latitude and longitude columns, assembles one JavaScript
point-definition line per remaining data row, and writes the lines with
`Series.to_csv(index=False, header=False, quoting=QUOTE_NONE, escapechar='\x5c',
sep='\n')`.

The shallow embedding below works on the parsed table (a `List (List String)`,
one inner list per non-blank source line, already split on the field
separator; separator-level lexing and pandas' blank-line skipping happen
upstream of this model).  The pandas-specific behaviours that the program
relies on are modelled explicitly:

* `read_csv` consumes the first row as the pandas header and errors when a
  later row has more fields than that first row; shorter rows are padded with
  NaN cells.
* Per-column dtype inference: a column whose present values all parse as
  numerals (empty fields count as NaN) is coerced to a numeric dtype; any
  other column keeps its values as strings (`Cell.str`).  `Cell.num` keeps the
  raw text of a coerced value, which is enough here because a numeric cell can
  never be equal to a string column name.  (The model recognises plain
  `[sign] digits [. digits]` numerals; pandas' extra spellings such as
  exponents or `inf` do not affect the claims checked here.)
* `df.iloc[k - 1]` with the Python int `k - 1`: for `k = 0` this wraps around
  to the LAST row of the frame; out-of-range positions raise `IndexError`.
* `df[name]` raises `KeyError` when `name` matches no column.  A duplicated
  name makes `df[name]` return a DataFrame, on which every configured-column
  use aborts before a write (`.str` raises `AttributeError`; the label
  concatenation ends in an assignment that raises) — modelled as an error —
  with one exception: the internal `df['points_def'] = series` assignment
  tile-broadcasts the series across duplicated `points_def` columns, so
  `df['points_def']` is then a multi-column frame and `to_csv` writes each
  assembled line once per matching column (`pointsDefCopies`, `repeatEach`,
  `writtenLines`).
* `.str.replace` raises when applied to a numeric-dtype column and propagates
  NaN cells untouched.
* String concatenation with a Series raises `TypeError` on NaN or numeric
  elements (`cellStrings`).
* In the synthesized-label branch the program executes `df['index'] = [...]`,
  which overwrites an existing column literally named `index` before the
  coordinate columns are read (`finalCell` takes that overwrite into account).
* `to_csv` with `quoting=QUOTE_NONE` and `escapechar='\x5c'` prefixes a
  backslash to every separator (`'\n'` here), quote and escape character of a
  written value — carriage returns pass through unescaped, because the
  CPython 3.11 writer escapes only the delimiter, quote char, escape char and
  the characters of the configured `'\n'` line terminator — and terminates
  every record with a newline (`csvEscape`, `renderFile`).

File-system effects are modelled by `runGenerate` over a map from paths to
file contents.
-/

namespace CsvToGee

/-- Errors the pipeline can abort with (Python exception classes collapsed to
the distinctions the claims need). -/
inductive Err where
  | emptyData
  | rowTooLong
  | badIndex
  | missingColumn
  | duplicateColumn
  | typeMismatch
  | missingFile
  | notTabular
deriving DecidableEq

/-- A pandas cell as observed by the program: a string of an object-dtype
column, the raw text of a numerically coerced value, or NaN. -/
inductive Cell where
  | str (s : String)
  | num (s : String)
  | nan
deriving DecidableEq

/-- Digits with at most one decimal dot and at least one digit. -/
def mantissaOK (l : List Char) : Bool :=
  l.any (fun c => c.isDigit) &&
    l.all (fun c => c.isDigit || c = '.') &&
    (l.filter (fun c => c = '.')).length ≤ 1

/-- Does pandas parse this field as a numeral?  (Optional sign, digits, at
most one decimal dot.) -/
def isNumericStr (s : String) : Bool :=
  match s.data with
  | [] => false
  | c :: rest => if c = '+' || c = '-' then mantissaOK rest else mantissaOK (c :: rest)

/-- An empty field is read as NaN by pandas. -/
def isNaNField (s : String) : Bool := s = ""

/-- Column dtype inference of `read_csv`: column `j` is coerced to a numeric
dtype iff every present value is a numeral or NaN.  `body` is the whole frame
below the pandas header (rows later dropped by `iloc` included, because dtypes
are fixed at read time). -/
def colNumeric (body : List (List String)) (j : Nat) : Bool :=
  body.all (fun r =>
    match r.get? j with
    | none => true
    | some s => isNaNField s || isNumericStr s)

/-- The cell of row `r` at column `j` given the column's dtype flag.  A
missing field (short row) is NaN-padded. -/
def cellOf (numericFlag : Bool) (r : List String) (j : Nat) : Cell :=
  match r.get? j with
  | none => Cell.nan
  | some s =>
    if isNaNField s then Cell.nan
    else if numericFlag then Cell.num s else Cell.str s

/-- The cell of row `r` at column `j` as materialised by `read_csv`. -/
def cellAt (body : List (List String)) (r : List String) (j : Nat) : Cell :=
  cellOf (colNumeric body j) r j

/-- Model of `pd.read_csv`: the first row is consumed as the pandas header
(only its width matters, since line 34 of the source rebinds the column
names); a longer later row is a parse error; an empty file is
`EmptyDataError`.  Returns the width and the body rows. -/
def readCsv (file : List (List String)) : Except Err (Nat × List (List String)) :=
  match file with
  | [] => .error .emptyData
  | r0 :: body =>
    if body.all (fun r => r.length ≤ r0.length) then .ok (r0.length, body)
    else .error .rowTooLong

/-- Position selected by `df.iloc[k - 1]` on a frame of `n` rows, with
Python's negative-index wraparound for `k = 0`. -/
def headerIdx (n k : Nat) : Except Err Nat :=
  if k = 0 then (if n = 0 then .error .badIndex else .ok (n - 1))
  else if k - 1 < n then .ok (k - 1) else .error .badIndex

/-- The column names after `df.columns = df.iloc[i]` (line 34): the cells of
body row `i`, one per column. -/
def resolvedHeader (w : Nat) (body : List (List String)) (i : Nat) : List Cell :=
  (List.range w).map (fun j => cellAt body (body.getD i []) j)

/-- Positions (from `start`) whose header cell is the string `name`. -/
def colMatchesFrom (name : String) (start : Nat) : List Cell → List Nat
  | [] => []
  | c :: rest =>
    if c = Cell.str name then start :: colMatchesFrom name (start + 1) rest
    else colMatchesFrom name (start + 1) rest

/-- Positions of the columns named `name`. -/
def colMatches (hdr : List Cell) (name : String) : List Nat :=
  colMatchesFrom name 0 hdr

/-- Model of `df[name]` column resolution: exactly one match is required;
no match is `KeyError`; duplicated matches abort downstream. -/
def findCol (hdr : List Cell) (name : String) : Except Err Nat :=
  match colMatches hdr name with
  | [] => .error .missingColumn
  | [j] => .ok j
  | _ => .error .duplicateColumn

/-- Model of Python's `value.replace(',', '.')`: every comma becomes a dot,
all other characters are untouched; no validation of any kind. -/
def replaceCommaWithDot (s : String) : String :=
  String.mk (s.data.map (fun c => if c = ',' then '.' else c))

/-- `.str.replace(',', '.')` on a single cell: NaN propagates. -/
def replaceCell : Cell → Cell
  | Cell.str s => Cell.str (replaceCommaWithDot s)
  | c => c

/-- Model of `_replace_comma_with_dot_in_col` (lines 88-102) applied to the
column at position `j`: the `.str` accessor raises on a numeric-dtype column,
otherwise every element has its commas replaced. -/
def replace_comma_with_dot_in_col (body dataRows : List (List String)) (j : Nat) :
    Except Err (List Cell) :=
  if colNumeric body j then .error .typeMismatch
  else .ok (dataRows.map (fun r => replaceCell (cellAt body r j)))

/-- The cell grid after lines 38-39 have written the comma-replaced latitude
and longitude columns back into the frame. -/
def dataCellAt (body : List (List String)) (latIdx lonIdx : Nat)
    (r : List String) (j : Nat) : Cell :=
  if j = latIdx ∨ j = lonIdx then replaceCell (cellAt body r j)
  else cellAt body r j

/-- The cell grid at the moment the output lines are assembled.  `idxPos` is
the position of a pre-existing column literally named `index` that line 48
(`df['index'] = [str(i) ...]`) has overwritten with the row numbers in the
synthesized-label branch (`none` when no overwrite happened). -/
def finalCell (body : List (List String)) (latIdx lonIdx : Nat)
    (idxPos : Option Nat) (rowIdx : Nat) (r : List String) (j : Nat) : Cell :=
  match idxPos with
  | some p =>
    if j = p then Cell.str (toString rowIdx)
    else dataCellAt body latIdx lonIdx r j
  | none => dataCellAt body latIdx lonIdx r j

/-- The column at position `j` of the assembled-time grid, rows numbered from
`start`. -/
def colCellsFrom (body : List (List String)) (latIdx lonIdx : Nat)
    (idxPos : Option Nat) (j : Nat) (start : Nat) :
    List (List String) → List Cell
  | [] => []
  | r :: rest =>
    finalCell body latIdx lonIdx idxPos start r j ::
      colCellsFrom body latIdx lonIdx idxPos j (start + 1) rest

/-- Element-wise string concatenation with a Series: every element must be a
string of an object column; NaN or numeric elements raise `TypeError`. -/
def cellStrings : List Cell → Except Err (List String)
  | [] => .ok []
  | Cell.str s :: rest =>
    match cellStrings rest with
    | .error e => .error e
    | .ok ss => .ok (s :: ss)
  | _ :: _ => .error .typeMismatch

/-- Model of `_get_second_part_of_def` (lines 64-85): longitude first, then
latitude. -/
def get_second_part_of_def (lon lat : String) : String :=
  " = ee.Geometry.Point([" ++ lon ++ "," ++ lat ++ "]);"

/-- One assembled output line: `var <label> = ee.Geometry.Point([<lon>,<lat>]);`. -/
def pointLine (label lon lat : String) : String :=
  "var " ++ label ++ get_second_part_of_def lon lat

/-- Labels `point_<start>`, `point_<start+1>`, ... (`n` of them), as built by
`'var point_' + df['index']` from `[str(i) for i in np.arange(len(df))]`. -/
def indexLabels (start : Nat) : Nat → List String
  | 0 => []
  | n + 1 => ("point_" ++ toString start) :: indexLabels (start + 1) n

/-- Position of the column the `df['index'] = ...` assignment of line 48
overwrites: the unique existing column named `index`, if any (a fresh column
is appended otherwise, which no later read of the coordinate columns can
see).  In the explicit-label branch no such assignment happens. -/
def idxPosOf (hdr : List Cell) (pc : Option String) : Option Nat :=
  match pc with
  | some _ => none
  | none => (colMatches hdr "index").head?

/-- The label column of the output: either the configured points column read
from the post-replacement grid (line 44), or the synthesized `point_<i>`
labels (lines 48-51, after checking that the `index` helper column can be
assigned unambiguously). -/
def labelsResolved (body dataRows : List (List String)) (hdr : List Cell)
    (latIdx lonIdx : Nat) (pc : Option String) : Except Err (List String) :=
  match pc with
  | some name =>
    match findCol hdr name with
    | .error e => .error e
    | .ok pcIdx =>
      cellStrings (colCellsFrom body latIdx lonIdx none pcIdx 0 dataRows)
  | none =>
    if 2 ≤ (colMatches hdr "index").length then .error .duplicateColumn
    else .ok (indexLabels 0 dataRows.length)

/-- Three-way `zipWith`. -/
def zipWith3 (f : String → String → String → String) :
    List String → List String → List String → List String
  | a :: as, b :: bs, c :: cs => f a b c :: zipWith3 f as bs cs
  | _, _, _ => []

/-- Final assembly (lines 44-51): concatenate label, longitude and latitude
of every row (longitude raises first, then latitude, matching the evaluation
order inside `_get_second_part_of_def`).  The result is the per-row value of
the `points_def` series; the subsequent `df['points_def'] = ...` assignment
always succeeds (pandas broadcasts it across duplicated `points_def`
columns, see `writtenLines`). -/
def assemble (labels : List String) (lonCells latCells : List Cell) :
    Except Err (List String) :=
  match cellStrings lonCells with
  | .error e => .error e
  | .ok lons =>
    match cellStrings latCells with
    | .error e => .error e
    | .ok lats => .ok (zipWith3 pointLine labels lons lats)

/-- Lines 38-53 of the source, after the header has been resolved: look up
and normalize the latitude column, then the longitude column (in that order,
matching the error order of the source), resolve the labels, and assemble the
output lines from the final cell grid. -/
def genAfterHeader (body dataRows : List (List String)) (hdr : List Cell)
    (latCol lonCol : String) (pc : Option String) : Except Err (List String) :=
  match findCol hdr latCol with
  | .error e => .error e
  | .ok latIdx =>
    match replace_comma_with_dot_in_col body dataRows latIdx with
    | .error e => .error e
    | .ok _ =>
      match findCol hdr lonCol with
      | .error e => .error e
      | .ok lonIdx =>
        match replace_comma_with_dot_in_col body dataRows lonIdx with
        | .error e => .error e
        | .ok _ =>
          match labelsResolved body dataRows hdr latIdx lonIdx pc with
          | .error e => .error e
          | .ok labels =>
            assemble labels
              (colCellsFrom body latIdx lonIdx (idxPosOf hdr pc) lonIdx 0 dataRows)
              (colCellsFrom body latIdx lonIdx (idxPosOf hdr pc) latIdx 0 dataRows)

/-- Model of `csv_to_gee_points` (lines 6-61) on the parsed source table,
returning the assembled output lines.  `k` is `num_rows_before_header`, `pc`
is `points_col_name`. -/
def csv_to_gee_points (file : List (List String)) (latCol lonCol : String)
    (k : Nat) (pc : Option String) : Except Err (List String) :=
  match readCsv file with
  | .error e => .error e
  | .ok (w, body) =>
    match headerIdx body.length k with
    | .error e => .error e
    | .ok i =>
      genAfterHeader body (body.drop k) (resolvedHeader w body i) latCol lonCol pc

/-- Number of columns the final `df['points_def']` selection spans: the
`df['points_def'] = series` assignment overwrites every existing column named
`points_def` (pandas tile-broadcasts the series across duplicates) or appends
one fresh column when none exists, so the selection has `max d 1` columns
where `d` is the number of resolved-header columns named `points_def`. -/
def pointsDefCopies (hdr : List Cell) : Nat :=
  max (colMatches hdr "points_def").length 1

/-- Each record repeated `d` times in place (row order preserved): what
`to_csv(sep='\n')` emits for a `d`-column frame whose columns all hold the
same series — the `d` equal fields of a row are joined by the separator
`'\n'` and the row ends with the `'\n'` line terminator, so every assembled
line is written `d` times. -/
def repeatEach (d : Nat) : List String → List String
  | [] => []
  | l :: rest => List.replicate d l ++ repeatEach d rest

/-- The records `to_csv` writes (line 53): the assembled per-row lines, each
repeated once per column of the `points_def` selection. -/
def writtenLines (file : List (List String)) (latCol lonCol : String)
    (k : Nat) (pc : Option String) : Except Err (List String) :=
  match readCsv file with
  | .error e => .error e
  | .ok (w, body) =>
    match headerIdx body.length k with
    | .error e => .error e
    | .ok i =>
      match genAfterHeader body (body.drop k) (resolvedHeader w body i)
          latCol lonCol pc with
      | .error e => .error e
      | .ok lines =>
        .ok (repeatEach (pointsDefCopies (resolvedHeader w body i)) lines)

/-- Characters `to_csv` escapes under `quoting=QUOTE_NONE` with
`escapechar='\x5c'`: the separator (`'\n'` here), the quote character and the
escape character itself each get a backslash prefix.  A carriage return is
written unescaped: the CPython 3.11 csv writer escapes only the delimiter,
the quote char, the escape char and the characters of the configured line
terminator, which pandas sets to `'\n'` when writing the file. -/
def csvEscapeChar (c : Char) : List Char :=
  if c = '\n' ∨ c = '"' ∨ c = '\\' then ['\\', c] else [c]

/-- Escape one written value. -/
def csvEscape (s : String) : String :=
  String.mk ((s.data.map csvEscapeChar).flatten)

/-- Bytes written by `Series.to_csv` (lines 53-61): every record escaped and
terminated by a newline; no header, no index. -/
def renderFile (lines : List String) : String :=
  String.join (lines.map (fun l => csvEscape l ++ "\n"))

/-- A file of the modelled file system: the source tables are kept in parsed
form, written output is raw text. -/
inductive FileData where
  | table (t : List (List String))
  | text (s : String)
deriving DecidableEq

/-- The whole operation including its file-system effects: read the source
path, run the pipeline, and on success write exactly the output path.  An
error leaves the file system untouched (the function returns no new state). -/
def runGenerate (fs : String → Option FileData) (csvFile outFile : String)
    (latCol lonCol : String) (k : Nat) (pc : Option String) :
    Except Err (String → Option FileData) :=
  match fs csvFile with
  | none => .error .missingFile
  | some (FileData.text _) => .error .notTabular
  | some (FileData.table t) =>
    match writtenLines t latCol lonCol k pc with
    | .error e => .error e
    | .ok lines =>
      .ok (fun p => if p = outFile then some (FileData.text (renderFile lines)) else fs p)

/-- The text carried by a string cell (and `""` on the non-string cells,
which never occur where this function is used in the theorems below). -/
def cellText : Cell → String
  | Cell.str s => s
  | _ => ""

/-! ### Concrete instances used to instantiate the theorems below -/

/-- A four-row source table: one junk row, the header, two data rows. -/
def tableA : List (List String) :=
  [["j1", "j2"], ["Lat", "Long"], ["45,1", "7,2"], ["1,5", "2,5"]]

/-- The output lines of `tableA` with offset 1 and synthesized labels. -/
def linesA : List String :=
  ["var point_0 = ee.Geometry.Point([7.2,45.1]);",
   "var point_1 = ee.Geometry.Point([2.5,1.5]);"]

/-- A file system holding `tableA` at path `in.csv`. -/
def fsA : String → Option FileData :=
  fun p => if p = "in.csv" then some (FileData.table tableA) else none

/-- `fsA` after the run that writes `out.txt`. -/
def fsA' : String → Option FileData :=
  fun p => if p = "out.txt" then some (FileData.text (renderFile linesA)) else fsA p

/-- A three-row source table: one junk row, the header, one data row. -/
def tableB : List (List String) :=
  [["x", "y"], ["Lat", "Long"], ["45,1", "7,2"]]

/-- The single output line of `tableB` with offset 1 and synthesized labels. -/
def linesB : List String :=
  ["var point_0 = ee.Geometry.Point([7.2,45.1]);"]

/-- A file system holding `tableB` at path `in`. -/
def fsB : String → Option FileData :=
  fun p => if p = "in" then some (FileData.table tableB) else none

/-- `fsB` after the run that writes `out`. -/
def fsB' : String → Option FileData :=
  fun p => if p = "out" then some (FileData.text (renderFile linesB)) else fsB p

/-- A file system holding `tableB` at path `f`, used for a run whose output
path is also `f`. -/
def fsSame : String → Option FileData :=
  fun p => if p = "f" then some (FileData.table tableB) else none

/-- `fsSame` after the run that writes its own source path `f`. -/
def fsSame' : String → Option FileData :=
  fun p => if p = "f" then some (FileData.text (renderFile linesB)) else fsSame p

/-- A file system whose table at `f` has a header row and one dot-decimal
data row (so both columns are numerically coerced at read time). -/
def fsNum : String → Option FileData :=
  fun p => if p = "f" then some (FileData.table [["Lat", "Long"], ["45.1", "7.2"]]) else none

/-- A file system whose table at `f` has header `A`, `B` (so a configured
column named `Lat` is missing). -/
def fsMiss : String → Option FileData :=
  fun p => if p = "f" then some (FileData.table [["x", "y"], ["A", "B"], ["1", "2"]]) else none

/-- A source table whose header row contains TWO columns literally named
`points_def` (one junk row, the header, one data row). -/
def tableDup : List (List String) :=
  [["a", "b", "c", "d"],
   ["Lat", "Long", "points_def", "points_def"],
   ["1", "2", "x", "y"]]

/-- The records a run on `tableDup` writes: the single assembled line is
emitted once per duplicated `points_def` column. -/
def linesDup : List String :=
  ["var point_0 = ee.Geometry.Point([2,1]);",
   "var point_0 = ee.Geometry.Point([2,1]);"]

/-- A file system holding `tableDup` at path `f`. -/
def fsDup : String → Option FileData :=
  fun p => if p = "f" then some (FileData.table tableDup) else none

/-- `fsDup` after the run that writes `g`. -/
def fsDup' : String → Option FileData :=
  fun p => if p = "g" then some (FileData.text (renderFile linesDup)) else fsDup p

/-! ### Helper lemmas -/

theorem readCsv_ok_length {file body : List (List String)} {w : Nat}
    (h : readCsv file = .ok (w, body)) : file.length = body.length + 1 := by
  unfold readCsv at h
  split at h
  · exact Except.noConfusion h
  · rename_i r0 rest
    split at h
    · simp only [Except.ok.injEq, Prod.mk.injEq] at h
      obtain ⟨-, h2⟩ := h
      subst h2
      simp
    · exact Except.noConfusion h

theorem headerIdx_ok_le {n k i : Nat} (h : headerIdx n k = .ok i) : k ≤ n := by
  unfold headerIdx at h
  split at h
  · split at h
    · exact Except.noConfusion h
    · omega
  · split at h
    · omega
    · exact Except.noConfusion h

theorem zipWith3_length (f : String → String → String → String) :
    ∀ (as bs cs : List String), bs.length = as.length → cs.length = as.length →
      (zipWith3 f as bs cs).length = as.length := by
  intro as
  induction as with
  | nil =>
    intro bs cs h1 h2
    cases bs with
    | nil =>
      cases cs with
      | nil => rfl
      | cons c cs => simp at h2
    | cons b bs => simp at h1
  | cons a as ih =>
    intro bs cs h1 h2
    cases bs with
    | nil => simp at h1
    | cons b bs =>
      cases cs with
      | nil => simp at h2
      | cons c cs =>
        simp only [List.length_cons] at h1 h2 ⊢
        rw [zipWith3]
        simp only [List.length_cons]
        rw [ih bs cs (by omega) (by omega)]

theorem zipWith3_getD (f : String → String → String → String) :
    ∀ (as bs cs : List String) (i : Nat), i < as.length → i < bs.length →
      i < cs.length →
      (zipWith3 f as bs cs).getD i "" =
        f (as.getD i "") (bs.getD i "") (cs.getD i "") := by
  intro as
  induction as with
  | nil => intro bs cs i hi1 hi2 hi3; simp at hi1
  | cons a as ih =>
    intro bs cs i hi1 hi2 hi3
    cases bs with
    | nil => simp at hi2
    | cons b bs =>
      cases cs with
      | nil => simp at hi3
      | cons c cs =>
        cases i with
        | zero => rfl
        | succ i =>
          rw [zipWith3]
          simp only [List.getD_cons_succ]
          exact ih bs cs i (by simp at hi1; omega) (by simp at hi2; omega)
            (by simp at hi3; omega)

theorem cellStrings_ok_length : ∀ {cs : List Cell} {ss : List String},
    cellStrings cs = .ok ss → ss.length = cs.length := by
  intro cs
  induction cs with
  | nil =>
    intro ss h
    simp only [cellStrings, Except.ok.injEq] at h
    subst h
    rfl
  | cons c cs ih =>
    intro ss h
    cases c with
    | str s =>
      simp only [cellStrings] at h
      split at h
      · exact Except.noConfusion h
      · rename_i ss0 heq
        simp only [Except.ok.injEq] at h
        subst h
        simp only [List.length_cons, ih heq]
    | num s => exact Except.noConfusion h
    | nan => exact Except.noConfusion h

theorem cellStrings_ok_getD : ∀ {cs : List Cell} {ss : List String},
    cellStrings cs = .ok ss → ∀ i, i < cs.length →
      cs.getD i Cell.nan = Cell.str (ss.getD i "") := by
  intro cs
  induction cs with
  | nil => intro ss h i hi; simp at hi
  | cons c cs ih =>
    intro ss h i hi
    cases c with
    | str s =>
      simp only [cellStrings] at h
      split at h
      · exact Except.noConfusion h
      · rename_i ss0 heq
        simp only [Except.ok.injEq] at h
        subst h
        cases i with
        | zero => rfl
        | succ i =>
          simp only [List.getD_cons_succ]
          exact ih heq i (by simp at hi; omega)
    | num s => exact Except.noConfusion h
    | nan => exact Except.noConfusion h

theorem colCellsFrom_length (body : List (List String)) (latIdx lonIdx : Nat)
    (idxPos : Option Nat) (j : Nat) :
    ∀ (start : Nat) (rows : List (List String)),
      (colCellsFrom body latIdx lonIdx idxPos j start rows).length = rows.length := by
  intro start rows
  induction rows generalizing start with
  | nil => rfl
  | cons r rest ih =>
    rw [colCellsFrom]
    simp only [List.length_cons, ih]

theorem colCellsFrom_getD (body : List (List String)) (latIdx lonIdx : Nat)
    (idxPos : Option Nat) (j : Nat) :
    ∀ (start i : Nat) (rows : List (List String)), i < rows.length →
      (colCellsFrom body latIdx lonIdx idxPos j start rows).getD i Cell.nan =
        finalCell body latIdx lonIdx idxPos (start + i) (rows.getD i []) j := by
  intro start i rows
  induction rows generalizing start i with
  | nil => intro hi; simp at hi
  | cons r rest ih =>
    intro hi
    cases i with
    | zero => rw [colCellsFrom]; rfl
    | succ i =>
      rw [colCellsFrom]
      simp only [List.getD_cons_succ]
      rw [ih (start + 1) i (by simp at hi; omega)]
      have harith : start + 1 + i = start + (i + 1) := by omega
      rw [harith]

theorem indexLabels_length : ∀ (start n : Nat), (indexLabels start n).length = n := by
  intro start n
  induction n generalizing start with
  | zero => rfl
  | succ n ih =>
    rw [indexLabels]
    simp only [List.length_cons, ih]

theorem indexLabels_getD : ∀ (start n i : Nat), i < n →
    (indexLabels start n).getD i "" = "point_" ++ toString (start + i) := by
  intro start n
  induction n generalizing start with
  | zero => intro i hi; omega
  | succ n ih =>
    intro i hi
    cases i with
    | zero => rw [indexLabels]; rfl
    | succ i =>
      rw [indexLabels]
      simp only [List.getD_cons_succ]
      rw [ih (start + 1) i (by omega)]
      have harith : start + 1 + i = start + (i + 1) := by omega
      rw [harith]

theorem labelsResolved_ok_length {body dataRows : List (List String)}
    {hdr : List Cell} {latIdx lonIdx : Nat} {pc : Option String}
    {ls : List String}
    (h : labelsResolved body dataRows hdr latIdx lonIdx pc = .ok ls) :
    ls.length = dataRows.length := by
  cases pc with
  | some name =>
    simp only [labelsResolved] at h
    split at h
    · exact Except.noConfusion h
    · have hlen := cellStrings_ok_length h
      rwa [colCellsFrom_length] at hlen
  | none =>
    simp only [labelsResolved] at h
    split at h
    · exact Except.noConfusion h
    · simp only [Except.ok.injEq] at h
      subst h
      exact indexLabels_length 0 dataRows.length

theorem colMatchesFrom_eq_nil {name : String} : ∀ {hdr : List Cell} (start : Nat),
    Cell.str name ∉ hdr → colMatchesFrom name start hdr = [] := by
  intro hdr
  induction hdr with
  | nil => intro start h; rfl
  | cons c rest ih =>
    intro start h
    simp only [List.mem_cons, not_or] at h
    obtain ⟨h1, h2⟩ := h
    rw [colMatchesFrom, if_neg (fun hc => h1 hc.symm)]
    exact ih (start + 1) h2

theorem colMatchesFrom_mem {name : String} : ∀ {hdr : List Cell} {start j : Nat},
    j ∈ colMatchesFrom name start hdr →
    ∃ d, j = start + d ∧ hdr[d]? = some (Cell.str name) := by
  intro hdr
  induction hdr with
  | nil => intro start j h; simp [colMatchesFrom] at h
  | cons c rest ih =>
    intro start j h
    rw [colMatchesFrom] at h
    split at h
    · rename_i hc
      rcases List.mem_cons.mp h with h0 | h0
      · exact ⟨0, by omega, by rw [hc]; simp⟩
      · obtain ⟨d, hd1, hd2⟩ := ih h0
        exact ⟨d + 1, by omega, by simpa using hd2⟩
    · obtain ⟨d, hd1, hd2⟩ := ih h
      exact ⟨d + 1, by omega, by simpa using hd2⟩

theorem colMatches_single {hdr : List Cell} {name : String} {j : Nat}
    (h : colMatches hdr name = [j]) : hdr[j]? = some (Cell.str name) := by
  have hj : j ∈ colMatches hdr name := by rw [h]; exact List.mem_singleton_self j
  obtain ⟨d, hd1, hd2⟩ := colMatchesFrom_mem hj
  have hdj : d = j := by omega
  exact hdj ▸ hd2

theorem findCol_ok_matches {hdr : List Cell} {name : String} {j : Nat}
    (h : findCol hdr name = .ok j) : colMatches hdr name = [j] := by
  unfold findCol at h
  split at h
  · exact Except.noConfusion h
  · rename_i j0 heq
    simp only [Except.ok.injEq] at h
    subst h
    exact heq
  · exact Except.noConfusion h

theorem resolvedHeader_get {w : Nat} {body : List (List String)} {i j : Nat}
    {cell : Cell} (h : (resolvedHeader w body i)[j]? = some cell) :
    cell = cellAt body (body.getD i []) j := by
  unfold resolvedHeader at h
  rw [List.getElem?_map] at h
  cases hr : (List.range w)[j]? with
  | none => rw [hr] at h; exact Option.noConfusion h
  | some v =>
    rw [hr] at h
    have hjw : j < w := by
      have hlt := List.getElem?_eq_some.mp hr
      obtain ⟨hlt2, -⟩ := hlt
      simpa using hlt2
    have hv : v = j := by
      rw [List.getElem?_range hjw] at hr
      exact (Option.some.injEq _ _ ▸ hr).symm
    simp only [Option.map_some', Option.some.injEq] at h
    rw [← h, hv]

theorem cellAt_str_flag {body : List (List String)} {r : List String}
    {j : Nat} {s : String} (h : cellAt body r j = Cell.str s) :
    colNumeric body j = false := by
  unfold cellAt cellOf at h
  split at h
  · exact Cell.noConfusion h
  · split at h
    · exact Cell.noConfusion h
    · split at h
      · exact Cell.noConfusion h
      · rename_i hflag
        simpa using hflag

theorem findCol_flag {w : Nat} {body : List (List String)} {i : Nat}
    {name : String} {j : Nat}
    (h : findCol (resolvedHeader w body i) name = .ok j) :
    colNumeric body j = false := by
  have h1 := colMatches_single (findCol_ok_matches h)
  have h2 := resolvedHeader_get h1
  exact cellAt_str_flag h2.symm

theorem assemble_ok {labels : List String}
    {lonCells latCells : List Cell} {out : List String}
    (h : assemble labels lonCells latCells = .ok out) :
    ∃ lons lats, cellStrings lonCells = .ok lons ∧
      cellStrings latCells = .ok lats ∧
      out = zipWith3 pointLine labels lons lats := by
  unfold assemble at h
  split at h
  · exact Except.noConfusion h
  · rename_i lons hlons
    split at h
    · exact Except.noConfusion h
    · rename_i lats hlats
      simp only [Except.ok.injEq] at h
      exact ⟨lons, lats, hlons, hlats, h.symm⟩

theorem genAfterHeader_ok {body dataRows : List (List String)} {hdr : List Cell}
    {latCol lonCol : String} {pc : Option String} {out : List String}
    (h : genAfterHeader body dataRows hdr latCol lonCol pc = .ok out) :
    ∃ latIdx lonIdx labels,
      findCol hdr latCol = .ok latIdx ∧
      findCol hdr lonCol = .ok lonIdx ∧
      labelsResolved body dataRows hdr latIdx lonIdx pc = .ok labels ∧
      assemble labels
        (colCellsFrom body latIdx lonIdx (idxPosOf hdr pc) lonIdx 0 dataRows)
        (colCellsFrom body latIdx lonIdx (idxPosOf hdr pc) latIdx 0 dataRows) =
        .ok out := by
  unfold genAfterHeader at h
  split at h
  · exact Except.noConfusion h
  · rename_i latIdx hlat
    split at h
    · exact Except.noConfusion h
    · rename_i latRep hlatRep
      split at h
      · exact Except.noConfusion h
      · rename_i lonIdx hlon
        split at h
        · exact Except.noConfusion h
        · rename_i lonRep hlonRep
          split at h
          · exact Except.noConfusion h
          · rename_i labels hlabels
            exact ⟨latIdx, lonIdx, labels, hlat, hlon, hlabels, h⟩

theorem gen_ok_elim {file : List (List String)} {latCol lonCol : String}
    {k : Nat} {pc : Option String} {out : List String}
    (h : csv_to_gee_points file latCol lonCol k pc = .ok out) :
    ∃ w body i latIdx lonIdx labels,
      readCsv file = .ok (w, body) ∧
      headerIdx body.length k = .ok i ∧
      findCol (resolvedHeader w body i) latCol = .ok latIdx ∧
      findCol (resolvedHeader w body i) lonCol = .ok lonIdx ∧
      labelsResolved body (body.drop k) (resolvedHeader w body i) latIdx lonIdx
        pc = .ok labels ∧
      assemble labels
        (colCellsFrom body latIdx lonIdx
          (idxPosOf (resolvedHeader w body i) pc) lonIdx 0 (body.drop k))
        (colCellsFrom body latIdx lonIdx
          (idxPosOf (resolvedHeader w body i) pc) latIdx 0 (body.drop k)) =
        .ok out := by
  unfold csv_to_gee_points at h
  split at h
  · exact Except.noConfusion h
  · rename_i w body hread
    split at h
    · exact Except.noConfusion h
    · rename_i i hidx
      obtain ⟨latIdx, lonIdx, labels, hlat, hlon, hlabels, hassemble⟩ :=
        genAfterHeader_ok h
      exact ⟨w, body, i, latIdx, lonIdx, labels, hread, hidx, hlat, hlon,
        hlabels, hassemble⟩

theorem runGenerate_ok_elim {fs : String → Option FileData}
    {csvFile outFile latCol lonCol : String} {k : Nat} {pc : Option String}
    {fs' : String → Option FileData}
    (h : runGenerate fs csvFile outFile latCol lonCol k pc = .ok fs') :
    ∃ t lines, fs csvFile = some (FileData.table t) ∧
      writtenLines t latCol lonCol k pc = .ok lines ∧
      fs' = fun p =>
        if p = outFile then some (FileData.text (renderFile lines)) else fs p := by
  unfold runGenerate at h
  split at h
  · exact Except.noConfusion h
  · exact Except.noConfusion h
  · rename_i t hfs
    split at h
    · exact Except.noConfusion h
    · rename_i lines hgen
      simp only [Except.ok.injEq] at h
      exact ⟨t, lines, hfs, hgen, h.symm⟩

theorem csvEscape_plain {s : String}
    (h : ∀ c ∈ s.data, ¬(c = '\n' ∨ c = '"' ∨ c = '\\')) :
    csvEscape s = s := by
  have aux : ∀ l : List Char, (∀ c ∈ l, ¬(c = '\n' ∨ c = '"' ∨ c = '\\')) →
      (l.map csvEscapeChar).flatten = l := by
    intro l
    induction l with
    | nil => intro hl; rfl
    | cons c cs ih =>
      intro hl
      have hc := hl c (List.mem_cons_self c cs)
      simp only [List.map_cons, List.flatten_cons, csvEscapeChar, if_neg hc]
      rw [ih (fun d hd => hl d (List.mem_cons_of_mem c hd))]
      rfl
  unfold csvEscape
  rw [aux s.data h]

theorem gen_eq_after {t : List (List String)} {latCol lonCol : String} {k : Nat}
    {pc : Option String} {w : Nat} {body : List (List String)} {i : Nat}
    (hread : readCsv t = .ok (w, body))
    (hidx : headerIdx body.length k = .ok i) :
    csv_to_gee_points t latCol lonCol k pc =
      genAfterHeader body (body.drop k) (resolvedHeader w body i) latCol lonCol pc := by
  simp only [csv_to_gee_points, hread, hidx]

theorem writtenLines_error_of_gen {t : List (List String)}
    {latCol lonCol : String} {k : Nat} {pc : Option String} {e : Err}
    (h : csv_to_gee_points t latCol lonCol k pc = .error e) :
    writtenLines t latCol lonCol k pc = .error e := by
  unfold csv_to_gee_points at h
  unfold writtenLines
  split at h
  · exact h
  · split at h
    · exact h
    · rw [h]

theorem writtenLines_eq_parts {t : List (List String)} {latCol lonCol : String}
    {k : Nat} {pc : Option String} {w : Nat} {body : List (List String)}
    {i : Nat} {lines : List String}
    (hread : readCsv t = .ok (w, body))
    (hidx : headerIdx body.length k = .ok i)
    (hgen : csv_to_gee_points t latCol lonCol k pc = .ok lines) :
    writtenLines t latCol lonCol k pc =
      .ok (repeatEach (pointsDefCopies (resolvedHeader w body i)) lines) := by
  have hafter : genAfterHeader body (body.drop k) (resolvedHeader w body i)
      latCol lonCol pc = .ok lines := by
    rw [← gen_eq_after hread hidx]
    exact hgen
  simp only [writtenLines, hread, hidx, hafter]

theorem writtenLines_ok_elim {file : List (List String)}
    {latCol lonCol : String} {k : Nat} {pc : Option String}
    {recs : List String}
    (h : writtenLines file latCol lonCol k pc = .ok recs) :
    ∃ w body i lines,
      readCsv file = .ok (w, body) ∧
      headerIdx body.length k = .ok i ∧
      csv_to_gee_points file latCol lonCol k pc = .ok lines ∧
      recs = repeatEach (pointsDefCopies (resolvedHeader w body i)) lines := by
  unfold writtenLines at h
  split at h
  · exact Except.noConfusion h
  · rename_i w body hread
    split at h
    · exact Except.noConfusion h
    · rename_i i hidx
      split at h
      · exact Except.noConfusion h
      · rename_i lines hafter
        simp only [Except.ok.injEq] at h
        refine ⟨w, body, i, lines, hread, hidx, ?_, h.symm⟩
        rw [gen_eq_after hread hidx]
        exact hafter

theorem repeatEach_length (d : Nat) :
    ∀ l : List String, (repeatEach d l).length = d * l.length := by
  intro l
  induction l with
  | nil => simp [repeatEach]
  | cons a rest ih =>
    rw [repeatEach]
    simp only [List.length_append, List.length_replicate, List.length_cons, ih]
    ring

theorem repeatEach_one : ∀ l : List String, repeatEach 1 l = l := by
  intro l
  induction l with
  | nil => rfl
  | cons a rest ih =>
    rw [repeatEach, ih]
    rfl

theorem mem_of_findCol_ok {hdr : List Cell} {name : String} {j : Nat}
    (h : findCol hdr name = .ok j) : Cell.str name ∈ hdr := by
  have hget := colMatches_single (findCol_ok_matches h)
  obtain ⟨hlt, heq⟩ := List.getElem?_eq_some.mp hget
  rw [← heq]
  exact List.getElem_mem hlt

theorem labelsResolved_some_mem {body dataRows : List (List String)}
    {hdr : List Cell} {latIdx lonIdx : Nat} {name : String} {ls : List String}
    (h : labelsResolved body dataRows hdr latIdx lonIdx (some name) = .ok ls) :
    Cell.str name ∈ hdr := by
  simp only [labelsResolved] at h
  split at h
  · exact Except.noConfusion h
  · rename_i pcIdx heq
    exact mem_of_findCol_ok heq

theorem runGenerate_error {fs : String → Option FileData}
    {csvFile outFile latCol lonCol : String} {k : Nat} {pc : Option String}
    {e : Err} {t : List (List String)}
    (hsrc : fs csvFile = some (FileData.table t))
    (hgen : csv_to_gee_points t latCol lonCol k pc = .error e) :
    runGenerate fs csvFile outFile latCol lonCol k pc = .error e := by
  simp only [runGenerate, hsrc, writtenLines_error_of_gen hgen]

theorem genAfterHeader_missing_lat {body dataRows : List (List String)}
    {hdr : List Cell} {latCol lonCol : String} {pc : Option String}
    (h : colMatches hdr latCol = []) :
    genAfterHeader body dataRows hdr latCol lonCol pc = .error .missingColumn := by
  have hfind : findCol hdr latCol = .error .missingColumn := by
    unfold findCol
    rw [h]
  simp only [genAfterHeader, hfind]

theorem genAfterHeader_missing_lon {w : Nat} {body dataRows : List (List String)}
    {i : Nat} {latCol lonCol : String} {pc : Option String} {latIdx : Nat}
    (hlat : colMatches (resolvedHeader w body i) latCol = [latIdx])
    (h : colMatches (resolvedHeader w body i) lonCol = []) :
    genAfterHeader body dataRows (resolvedHeader w body i) latCol lonCol pc =
      .error .missingColumn := by
  have hlatf : findCol (resolvedHeader w body i) latCol = .ok latIdx := by
    unfold findCol
    rw [hlat]
  have hflag : colNumeric body latIdx = false := findCol_flag hlatf
  have hlonf : findCol (resolvedHeader w body i) lonCol = .error .missingColumn := by
    unfold findCol
    rw [h]
  simp only [genAfterHeader, hlatf, replace_comma_with_dot_in_col, hflag,
    Bool.false_eq_true, if_false, hlonf]

theorem genAfterHeader_missing_pc {w : Nat} {body dataRows : List (List String)}
    {i : Nat} {latCol lonCol name : String} {latIdx lonIdx : Nat}
    (hlat : colMatches (resolvedHeader w body i) latCol = [latIdx])
    (hlon : colMatches (resolvedHeader w body i) lonCol = [lonIdx])
    (h : colMatches (resolvedHeader w body i) name = []) :
    genAfterHeader body dataRows (resolvedHeader w body i) latCol lonCol
      (some name) = .error .missingColumn := by
  have hlatf : findCol (resolvedHeader w body i) latCol = .ok latIdx := by
    unfold findCol
    rw [hlat]
  have hlonf : findCol (resolvedHeader w body i) lonCol = .ok lonIdx := by
    unfold findCol
    rw [hlon]
  have hflagLat : colNumeric body latIdx = false := findCol_flag hlatf
  have hflagLon : colNumeric body lonIdx = false := findCol_flag hlonf
  have hnamef : findCol (resolvedHeader w body i) name = .error .missingColumn := by
    unfold findCol
    rw [h]
  have hlabels : labelsResolved body dataRows (resolvedHeader w body i) latIdx
      lonIdx (some name) = .error .missingColumn := by
    simp only [labelsResolved, hnamef]
  simp only [genAfterHeader, hlatf, hlonf, replace_comma_with_dot_in_col,
    hflagLat, hflagLon, Bool.false_eq_true, if_false, hlabels]

theorem gen_ok_length {file : List (List String)} {latCol lonCol : String}
    {k : Nat} {pc : Option String} {out : List String}
    (h : csv_to_gee_points file latCol lonCol k pc = .ok out) :
    out.length + (k + 1) = file.length := by
  obtain ⟨w, body, i, latIdx, lonIdx, labels, hread, hidx, hlat, hlon,
    hlabels, hassemble⟩ := gen_ok_elim h
  obtain ⟨lons, lats, hlons, hlats, hout⟩ := assemble_ok hassemble
  have hlabLen : labels.length = (body.drop k).length :=
    labelsResolved_ok_length hlabels
  have hlonLen : lons.length = (body.drop k).length := by
    have hc := cellStrings_ok_length hlons
    rwa [colCellsFrom_length] at hc
  have hlatLen : lats.length = (body.drop k).length := by
    have hc := cellStrings_ok_length hlats
    rwa [colCellsFrom_length] at hc
  have houtLen : out.length = labels.length := by
    rw [hout, zipWith3_length pointLine labels lons lats (by omega) (by omega)]
  have hkle : k ≤ body.length := headerIdx_ok_le hidx
  have hfile : file.length = body.length + 1 := readCsv_ok_length hread
  have hdrop : (body.drop k).length = body.length - k := List.length_drop k body
  omega

theorem assemble_lines {body dataRows : List (List String)} {hdr : List Cell}
    {latIdx lonIdx : Nat} {pc : Option String} {labels out : List String}
    (hlabels : labelsResolved body dataRows hdr latIdx lonIdx pc = .ok labels)
    (hassemble : assemble labels
      (colCellsFrom body latIdx lonIdx (idxPosOf hdr pc) lonIdx 0 dataRows)
      (colCellsFrom body latIdx lonIdx (idxPosOf hdr pc) latIdx 0 dataRows) =
      .ok out) :
    out.length = dataRows.length ∧
    ∀ idx, idx < dataRows.length →
      out.getD idx "" = pointLine (labels.getD idx "")
        (cellText (finalCell body latIdx lonIdx (idxPosOf hdr pc) idx
          (dataRows.getD idx []) lonIdx))
        (cellText (finalCell body latIdx lonIdx (idxPosOf hdr pc) idx
          (dataRows.getD idx []) latIdx)) := by
  obtain ⟨lons, lats, hlons, hlats, hout⟩ := assemble_ok hassemble
  have hlabLen : labels.length = dataRows.length := labelsResolved_ok_length hlabels
  have hlonLen : lons.length = dataRows.length := by
    have hc := cellStrings_ok_length hlons
    rwa [colCellsFrom_length] at hc
  have hlatLen : lats.length = dataRows.length := by
    have hc := cellStrings_ok_length hlats
    rwa [colCellsFrom_length] at hc
  have houtLen : out.length = dataRows.length := by
    rw [hout, zipWith3_length pointLine labels lons lats (by omega) (by omega)]
    omega
  refine ⟨houtLen, ?_⟩
  intro idx hidx
  have hzip := zipWith3_getD pointLine labels lons lats idx (by omega) (by omega)
    (by omega)
  have h1 := cellStrings_ok_getD hlons idx
    (by rw [colCellsFrom_length]; omega)
  rw [colCellsFrom_getD body latIdx lonIdx (idxPosOf hdr pc) lonIdx 0 idx
    dataRows (by omega)] at h1
  have h2 := cellStrings_ok_getD hlats idx
    (by rw [colCellsFrom_length]; omega)
  rw [colCellsFrom_getD body latIdx lonIdx (idxPosOf hdr pc) latIdx 0 idx
    dataRows (by omega)] at h2
  have e1 : cellText (finalCell body latIdx lonIdx (idxPosOf hdr pc) (0 + idx)
      (dataRows.getD idx []) lonIdx) = lons.getD idx "" := by
    rw [h1]
    rfl
  have e2 : cellText (finalCell body latIdx lonIdx (idxPosOf hdr pc) (0 + idx)
      (dataRows.getD idx []) latIdx) = lats.getD idx "" := by
    rw [h2]
    rfl
  rw [hout, hzip, ← e1, ← e2, Nat.zero_add]

/-! ### Claim theorems -/

/-- C1: the claim says the row at the configured offset (default 0) becomes
the header and all rows at or before it are discarded.  At the default offset
0 the source instead executes `df.columns = df.iloc[-1]`: on the file
`[[H1,H2],[a,b],[c,d]]` the resolved header is the LAST data row `[c,d]`,
not the row `[H1,H2]` at offset 0, and the subsequent lookup of the
configured column `H1` aborts with a missing-column error. -/
theorem claim_C1_header_offset_default :
    readCsv [["H1", "H2"], ["a", "b"], ["c", "d"]] =
      .ok (2, [["a", "b"], ["c", "d"]]) ∧
    headerIdx 2 0 = .ok 1 ∧
    resolvedHeader 2 [["a", "b"], ["c", "d"]] 1 = [Cell.str "c", Cell.str "d"] ∧
    resolvedHeader 2 [["a", "b"], ["c", "d"]] 1 ≠ [Cell.str "H1", Cell.str "H2"] ∧
    csv_to_gee_points [["H1", "H2"], ["a", "b"], ["c", "d"]] "H1" "H2" 0 none =
      .error .missingColumn :=
  ⟨rfl, rfl, rfl, by decide, rfl⟩

/-- C2: on the spec's scenario input (header `Lat,Long` followed by the single
data row `45,1` / `7,2`) with the default offset 0 the program does NOT
produce the claimed line: the `iloc[-1]` slip makes the data row the header
and the run aborts with a missing-column error.  With one leading junk row
and offset 1 (so that the header row is genuinely preceded by
`num_rows_before_header` rows) the program produces exactly the claimed
output line. -/
theorem claim_C2_scenario :
    csv_to_gee_points [["Lat", "Long"], ["45,1", "7,2"]] "Lat" "Long" 0 none =
      .error .missingColumn ∧
    csv_to_gee_points [["j1", "j2"], ["Lat", "Long"], ["45,1", "7,2"]]
      "Lat" "Long" 1 none =
      .ok ["var point_0 = ee.Geometry.Point([7.2,45.1]);"] :=
  ⟨rfl, rfl⟩

/-- C3 counterexample: the claim says the number of written lines always
equals the number of remaining data rows.  On a source whose header row
contains two columns literally named `points_def`, the internal
`df['points_def'] = series` assignment broadcasts across both columns and
`to_csv` writes the two-column frame: the run succeeds and writes TWO
records for the single data row, so `2 + (k + 1) ≠ t.length`. -/
theorem claim_C3_counterexample :
    writtenLines tableDup "Lat" "Long" 1 none = .ok linesDup ∧
    runGenerate fsDup "f" "g" "Lat" "Long" 1 none = .ok fsDup' ∧
    linesDup.length + (1 + 1) ≠ tableDup.length :=
  ⟨rfl, rfl, by decide⟩

/-- C3 (amended): in every successful run the file written to the output
path is the rendering of the written records, and the number of records is
the number of remaining data rows multiplied by the width of the
`points_def` selection (1 unless the resolved header contains two or more
columns named `points_def`); the assembled per-row lines satisfy
`lines.length + (k + 1) = t.length`, and when `points_def` is not duplicated
the written records are exactly those lines — one per data row, in row
order. -/
theorem claim_C3_line_count (fs : String → Option FileData)
    (csvFile outFile latCol lonCol : String) (k : Nat) (pc : Option String)
    (fs' : String → Option FileData) (t : List (List String)) (w : Nat)
    (body : List (List String)) (i : Nat) (lines recs : List String)
    (hrun : runGenerate fs csvFile outFile latCol lonCol k pc = .ok fs')
    (hsrc : fs csvFile = some (FileData.table t))
    (hread : readCsv t = .ok (w, body))
    (hidx : headerIdx body.length k = .ok i)
    (hgen : csv_to_gee_points t latCol lonCol k pc = .ok lines)
    (hwr : writtenLines t latCol lonCol k pc = .ok recs) :
    fs' outFile = some (FileData.text (renderFile recs)) ∧
    recs.length = pointsDefCopies (resolvedHeader w body i) * lines.length ∧
    lines.length + (k + 1) = t.length ∧
    ((colMatches (resolvedHeader w body i) "points_def").length ≤ 1 →
      recs = lines) := by
  obtain ⟨t2, recs2, hsrc2, hwr2, hfs2⟩ := runGenerate_ok_elim hrun
  rw [hsrc] at hsrc2
  simp only [Option.some.injEq, FileData.table.injEq] at hsrc2
  subst hsrc2
  rw [hwr] at hwr2
  simp only [Except.ok.injEq] at hwr2
  subst hwr2
  subst hfs2
  have hval : recs = repeatEach (pointsDefCopies (resolvedHeader w body i)) lines := by
    have hw2 := writtenLines_eq_parts hread hidx hgen
    rw [hwr] at hw2
    simp only [Except.ok.injEq] at hw2
    exact hw2
  refine ⟨by simp, ?_, gen_ok_length hgen, ?_⟩
  · rw [hval, repeatEach_length]
  · intro hdup
    have hone : pointsDefCopies (resolvedHeader w body i) = 1 := by
      unfold pointsDefCopies
      omega
    rw [hval, hone, repeatEach_one]

/-- C3 witness: a concrete run with one junk row, the header, and two data
rows writes exactly the two assembled lines. -/
theorem claim_C3_line_count_witness :
    fsA' "out.txt" = some (FileData.text (renderFile linesA)) ∧
    linesA.length = pointsDefCopies
      (resolvedHeader 2 [["Lat", "Long"], ["45,1", "7,2"], ["1,5", "2,5"]] 0) *
      linesA.length ∧
    linesA.length + (1 + 1) = tableA.length ∧
    ((colMatches (resolvedHeader 2
      [["Lat", "Long"], ["45,1", "7,2"], ["1,5", "2,5"]] 0) "points_def").length ≤ 1 →
      linesA = linesA) := by
  have h := claim_C3_line_count fsA "in.csv" "out.txt" "Lat" "Long" 1 none fsA'
    tableA 2 [["Lat", "Long"], ["45,1", "7,2"], ["1,5", "2,5"]] 0 linesA linesA
    rfl rfl rfl rfl rfl rfl
  exact ⟨h.1, h.2.1, h.2.2.1, h.2.2.2⟩

/-- C4 counterexample: the claim says that with no label column the emitted
labels are exactly `point_0 ... point_{n-1}`.  On a header row duplicating
`points_def`, the run succeeds and WRITES the `point_0` line twice for its
single data row, so the written records are not the claimed one-line-per-
index list. -/
theorem claim_C4_counterexample :
    csv_to_gee_points tableDup "Lat" "Long" 1 none =
      .ok ["var point_0 = ee.Geometry.Point([2,1]);"] ∧
    writtenLines tableDup "Lat" "Long" 1 none = .ok linesDup ∧
    linesDup ≠ ["var point_0 = ee.Geometry.Point([2,1]);"] :=
  ⟨rfl, rfl, by decide⟩

/-- C4 (amended): in every successful run with no label column configured,
the assembled output has one line per remaining data row and line `idx`
(zero-based, in row order) is exactly the point definition labelled
`point_<idx>`; provided the resolved header does not contain two or more
columns named `points_def`, the written records are exactly these lines
(with `d ≥ 2` duplicated `points_def` columns each labelled line is written
`d` times instead). -/
theorem claim_C4_synthesized_labels (file : List (List String))
    (latCol lonCol : String) (k : Nat) (out recs : List String) (w : Nat)
    (body : List (List String)) (i latIdx lonIdx : Nat)
    (hgen : csv_to_gee_points file latCol lonCol k none = .ok out)
    (hread : readCsv file = .ok (w, body))
    (hidx : headerIdx body.length k = .ok i)
    (hlat : findCol (resolvedHeader w body i) latCol = .ok latIdx)
    (hlon : findCol (resolvedHeader w body i) lonCol = .ok lonIdx)
    (hdup : (colMatches (resolvedHeader w body i) "points_def").length ≤ 1)
    (hwr : writtenLines file latCol lonCol k none = .ok recs) :
    recs = out ∧
    out.length = (body.drop k).length ∧
    ∀ idx, idx < out.length →
      out.getD idx "" = pointLine ("point_" ++ toString idx)
        (cellText (finalCell body latIdx lonIdx
          (idxPosOf (resolvedHeader w body i) none) idx
          ((body.drop k).getD idx []) lonIdx))
        (cellText (finalCell body latIdx lonIdx
          (idxPosOf (resolvedHeader w body i) none) idx
          ((body.drop k).getD idx []) latIdx)) := by
  obtain ⟨w2, body2, i2, latIdx2, lonIdx2, labels, hread2, hidx2, hlat2,
    hlon2, hlabels, hassemble⟩ := gen_ok_elim hgen
  rw [hread] at hread2
  simp only [Except.ok.injEq, Prod.mk.injEq] at hread2
  obtain ⟨hw, hb⟩ := hread2
  subst hw
  subst hb
  rw [hidx] at hidx2
  simp only [Except.ok.injEq] at hidx2
  subst hidx2
  rw [hlat] at hlat2
  simp only [Except.ok.injEq] at hlat2
  subst hlat2
  rw [hlon] at hlon2
  simp only [Except.ok.injEq] at hlon2
  subst hlon2
  have hlabval : labels = indexLabels 0 (body.drop k).length := by
    simp only [labelsResolved] at hlabels
    split at hlabels
    · exact Except.noConfusion hlabels
    · simp only [Except.ok.injEq] at hlabels
      exact hlabels.symm
  obtain ⟨hlen, hline⟩ := assemble_lines hlabels hassemble
  have hrecs : recs = out := by
    have hw2 := writtenLines_eq_parts hread hidx hgen
    rw [hwr] at hw2
    simp only [Except.ok.injEq] at hw2
    have hone : pointsDefCopies (resolvedHeader w body i) = 1 := by
      unfold pointsDefCopies
      omega
    rw [hw2, hone, repeatEach_one]
  refine ⟨hrecs, hlen, ?_⟩
  intro idx hidxlt
  rw [hline idx (by omega), hlabval,
    indexLabels_getD 0 (body.drop k).length idx (by omega), Nat.zero_add]

/-- C4 witness: on a concrete run with two file rows after the junk row the
single written record is the output line labelled `point_0`. -/
theorem claim_C4_synthesized_labels_witness :
    (["var point_0 = ee.Geometry.Point([7.2,45.1]);"] : List String) =
      ["var point_0 = ee.Geometry.Point([7.2,45.1]);"] ∧
    (["var point_0 = ee.Geometry.Point([7.2,45.1]);"] : List String).length =
      (([["Lat", "Long"], ["45,1", "7,2"]] : List (List String)).drop 1).length ∧
    (["var point_0 = ee.Geometry.Point([7.2,45.1]);"] : List String).getD 0 "" =
      pointLine ("point_" ++ toString 0)
        (cellText (finalCell [["Lat", "Long"], ["45,1", "7,2"]] 0 1
          (idxPosOf (resolvedHeader 2 [["Lat", "Long"], ["45,1", "7,2"]] 0) none) 0
          ((([["Lat", "Long"], ["45,1", "7,2"]] : List (List String)).drop 1).getD 0 [])
          1))
        (cellText (finalCell [["Lat", "Long"], ["45,1", "7,2"]] 0 1
          (idxPosOf (resolvedHeader 2 [["Lat", "Long"], ["45,1", "7,2"]] 0) none) 0
          ((([["Lat", "Long"], ["45,1", "7,2"]] : List (List String)).drop 1).getD 0 [])
          0)) := by
  have h := claim_C4_synthesized_labels
    [["x", "y"], ["Lat", "Long"], ["45,1", "7,2"]] "Lat" "Long" 1
    ["var point_0 = ee.Geometry.Point([7.2,45.1]);"]
    ["var point_0 = ee.Geometry.Point([7.2,45.1]);"] 2
    [["Lat", "Long"], ["45,1", "7,2"]] 0 0 1 rfl rfl rfl rfl rfl (by decide) rfl
  exact ⟨h.1, h.2.1, h.2.2 0 (by decide)⟩

/-- C5: in every successful run, line `idx` of the output is
`pointLine label lon lat` where `lon` is the value taken from the column
found by the configured LONGITUDE name and `lat` the value from the column
found by the configured LATITUDE name — `pointLine label lon lat` is
literally `var <label> = ee.Geometry.Point([<lon>,<lat>]);`, so the
longitude value always comes first regardless of which names are
configured. -/
theorem claim_C5_longitude_first (file : List (List String))
    (latCol lonCol : String) (k : Nat) (pc : Option String)
    (out : List String) (w : Nat) (body : List (List String))
    (i latIdx lonIdx : Nat) (labels : List String)
    (hgen : csv_to_gee_points file latCol lonCol k pc = .ok out)
    (hread : readCsv file = .ok (w, body))
    (hidx : headerIdx body.length k = .ok i)
    (hlat : findCol (resolvedHeader w body i) latCol = .ok latIdx)
    (hlon : findCol (resolvedHeader w body i) lonCol = .ok lonIdx)
    (hlabels : labelsResolved body (body.drop k) (resolvedHeader w body i)
      latIdx lonIdx pc = .ok labels) :
    ∀ idx, idx < out.length →
      out.getD idx "" = pointLine (labels.getD idx "")
        (cellText (finalCell body latIdx lonIdx
          (idxPosOf (resolvedHeader w body i) pc) idx
          ((body.drop k).getD idx []) lonIdx))
        (cellText (finalCell body latIdx lonIdx
          (idxPosOf (resolvedHeader w body i) pc) idx
          ((body.drop k).getD idx []) latIdx)) := by
  obtain ⟨w2, body2, i2, latIdx2, lonIdx2, labels2, hread2, hidx2, hlat2,
    hlon2, hlabels2, hassemble⟩ := gen_ok_elim hgen
  rw [hread] at hread2
  simp only [Except.ok.injEq, Prod.mk.injEq] at hread2
  obtain ⟨hw, hb⟩ := hread2
  subst hw
  subst hb
  rw [hidx] at hidx2
  simp only [Except.ok.injEq] at hidx2
  subst hidx2
  rw [hlat] at hlat2
  simp only [Except.ok.injEq] at hlat2
  subst hlat2
  rw [hlon] at hlon2
  simp only [Except.ok.injEq] at hlon2
  subst hlon2
  rw [hlabels] at hlabels2
  simp only [Except.ok.injEq] at hlabels2
  subst hlabels2
  obtain ⟨hlen, hline⟩ := assemble_lines hlabels hassemble
  intro idx hidxlt
  exact hline idx (by omega)

/-- C5 witness: a concrete run with an explicit label column; the longitude
value `7.2` is the first point coordinate. -/
theorem claim_C5_longitude_first_witness :
    (["var alpha = ee.Geometry.Point([7.2,45.1]);"] : List String).getD 0 "" =
      pointLine ((["alpha"] : List String).getD 0 "")
        (cellText (finalCell [["Lat", "Long", "Nm"], ["45,1", "7,2", "alpha"]] 0 1
          (idxPosOf (resolvedHeader 3
            [["Lat", "Long", "Nm"], ["45,1", "7,2", "alpha"]] 0) (some "Nm")) 0
          ((([["Lat", "Long", "Nm"], ["45,1", "7,2", "alpha"]] :
            List (List String)).drop 1).getD 0 []) 1))
        (cellText (finalCell [["Lat", "Long", "Nm"], ["45,1", "7,2", "alpha"]] 0 1
          (idxPosOf (resolvedHeader 3
            [["Lat", "Long", "Nm"], ["45,1", "7,2", "alpha"]] 0) (some "Nm")) 0
          ((([["Lat", "Long", "Nm"], ["45,1", "7,2", "alpha"]] :
            List (List String)).drop 1).getD 0 []) 0)) :=
  claim_C5_longitude_first
    [["a", "b", "c"], ["Lat", "Long", "Nm"], ["45,1", "7,2", "alpha"]]
    "Lat" "Long" 1 (some "Nm") ["var alpha = ee.Geometry.Point([7.2,45.1]);"]
    3 [["Lat", "Long", "Nm"], ["45,1", "7,2", "alpha"]] 0 0 1 ["alpha"]
    rfl rfl rfl rfl rfl rfl 0 (by decide)

/-- C6 counterexample: the claim says a missing configured column name
always fails with the missing-column error.  With the latitude name
duplicated in the resolved header AND the longitude name absent (squarely in
the claim's scope), the run aborts at the latitude lookup/normalization on
the duplicated columns — in the source, `df['Lat']` returns a DataFrame and
`.str` raises `AttributeError` — not with the missing-column failure. -/
theorem claim_C6_counterexample :
    Cell.str "Long" ∉ resolvedHeader 2 [["Lat", "Lat"], ["1", "2"]] 0 ∧
    csv_to_gee_points [["j", "k"], ["Lat", "Lat"], ["1", "2"]]
      "Lat" "Long" 1 none = .error .duplicateColumn ∧
    Err.duplicateColumn ≠ Err.missingColumn :=
  ⟨by decide, rfl, by decide⟩

/-- C6 (amended): a missing configured column name always makes the run fail
with no output file written (the core pipeline and the file-system run never
return a success), and the failure is the missing-column error whenever the
configured names looked up before the missing one each match exactly one
header column: a missing latitude name (looked up first) always gives the
missing-column error; a missing longitude name does so once the latitude
name matches uniquely; a missing label name does so once both coordinate
names match uniquely.  When an earlier lookup hits duplicated columns the
run aborts with that duplication failure instead. -/
theorem claim_C6_missing_column (fs : String → Option FileData)
    (csvFile outFile latCol lonCol : String) (k : Nat) (pc : Option String)
    (t : List (List String)) (w : Nat) (body : List (List String)) (i : Nat)
    (hsrc : fs csvFile = some (FileData.table t))
    (hread : readCsv t = .ok (w, body))
    (hidx : headerIdx body.length k = .ok i) :
    (Cell.str latCol ∉ resolvedHeader w body i →
      csv_to_gee_points t latCol lonCol k pc = .error .missingColumn ∧
      runGenerate fs csvFile outFile latCol lonCol k pc =
        .error .missingColumn) ∧
    (Cell.str lonCol ∉ resolvedHeader w body i →
      (∀ out, csv_to_gee_points t latCol lonCol k pc ≠ .ok out) ∧
      ∀ fs2, runGenerate fs csvFile outFile latCol lonCol k pc ≠ .ok fs2) ∧
    (∀ name, pc = some name → Cell.str name ∉ resolvedHeader w body i →
      (∀ out, csv_to_gee_points t latCol lonCol k pc ≠ .ok out) ∧
      ∀ fs2, runGenerate fs csvFile outFile latCol lonCol k pc ≠ .ok fs2) ∧
    (∀ latIdx, colMatches (resolvedHeader w body i) latCol = [latIdx] →
      Cell.str lonCol ∉ resolvedHeader w body i →
      csv_to_gee_points t latCol lonCol k pc = .error .missingColumn ∧
      runGenerate fs csvFile outFile latCol lonCol k pc =
        .error .missingColumn) ∧
    (∀ latIdx lonIdx name,
      colMatches (resolvedHeader w body i) latCol = [latIdx] →
      colMatches (resolvedHeader w body i) lonCol = [lonIdx] →
      pc = some name →
      Cell.str name ∉ resolvedHeader w body i →
      csv_to_gee_points t latCol lonCol k pc = .error .missingColumn ∧
      runGenerate fs csvFile outFile latCol lonCol k pc =
        .error .missingColumn) := by
  have hcoreNoLon : Cell.str lonCol ∉ resolvedHeader w body i →
      ∀ out, csv_to_gee_points t latCol lonCol k pc ≠ .ok out := by
    intro hnot out hok
    obtain ⟨w2, body2, i2, latIdx2, lonIdx2, labels, hread2, hidx2, hlat2,
      hlon2, -, -⟩ := gen_ok_elim hok
    rw [hread] at hread2
    simp only [Except.ok.injEq, Prod.mk.injEq] at hread2
    obtain ⟨hw, hb⟩ := hread2
    subst hw
    subst hb
    rw [hidx] at hidx2
    simp only [Except.ok.injEq] at hidx2
    subst hidx2
    exact hnot (mem_of_findCol_ok hlon2)
  have hcoreNoPc : ∀ name, pc = some name →
      Cell.str name ∉ resolvedHeader w body i →
      ∀ out, csv_to_gee_points t latCol lonCol k pc ≠ .ok out := by
    intro name hpc hnot out hok
    subst hpc
    obtain ⟨w2, body2, i2, latIdx2, lonIdx2, labels, hread2, hidx2, -, -,
      hlabels, -⟩ := gen_ok_elim hok
    rw [hread] at hread2
    simp only [Except.ok.injEq, Prod.mk.injEq] at hread2
    obtain ⟨hw, hb⟩ := hread2
    subst hw
    subst hb
    rw [hidx] at hidx2
    simp only [Except.ok.injEq] at hidx2
    subst hidx2
    exact hnot (labelsResolved_some_mem hlabels)
  have hrunOfCore : (∀ out, csv_to_gee_points t latCol lonCol k pc ≠ .ok out) →
      ∀ fs2, runGenerate fs csvFile outFile latCol lonCol k pc ≠ .ok fs2 := by
    intro hcore fs2 hok
    obtain ⟨t2, recs, hsrc2, hwr2, -⟩ := runGenerate_ok_elim hok
    rw [hsrc] at hsrc2
    simp only [Option.some.injEq, FileData.table.injEq] at hsrc2
    subst hsrc2
    obtain ⟨w2, body2, i2, lines, -, -, hgen2, -⟩ := writtenLines_ok_elim hwr2
    exact hcore lines hgen2
  refine ⟨?_, ?_, ?_, ?_, ?_⟩
  · intro hnot
    have hm : colMatches (resolvedHeader w body i) latCol = [] :=
      colMatchesFrom_eq_nil 0 hnot
    have hcore : csv_to_gee_points t latCol lonCol k pc =
        .error .missingColumn := by
      rw [gen_eq_after hread hidx]
      exact genAfterHeader_missing_lat hm
    exact ⟨hcore, runGenerate_error hsrc hcore⟩
  · intro hnot
    exact ⟨hcoreNoLon hnot, hrunOfCore (hcoreNoLon hnot)⟩
  · intro name hpc hnot
    exact ⟨hcoreNoPc name hpc hnot, hrunOfCore (hcoreNoPc name hpc hnot)⟩
  · intro latIdx hlatm hnot
    have hm : colMatches (resolvedHeader w body i) lonCol = [] :=
      colMatchesFrom_eq_nil 0 hnot
    have hcore : csv_to_gee_points t latCol lonCol k pc =
        .error .missingColumn := by
      rw [gen_eq_after hread hidx]
      exact genAfterHeader_missing_lon hlatm hm
    exact ⟨hcore, runGenerate_error hsrc hcore⟩
  · intro latIdx lonIdx name hlatm hlonm hpc hnot
    have hm : colMatches (resolvedHeader w body i) name = [] :=
      colMatchesFrom_eq_nil 0 hnot
    have hcore : csv_to_gee_points t latCol lonCol k pc =
        .error .missingColumn := by
      rw [gen_eq_after hread hidx, hpc]
      exact genAfterHeader_missing_pc hlatm hlonm hm
    exact ⟨hcore, runGenerate_error hsrc hcore⟩

/-- C6 witness: a run configured with latitude column `Lat` against a table
whose resolved header is `A`, `B` aborts with the missing-column error. -/
theorem claim_C6_missing_column_witness :
    csv_to_gee_points [["x", "y"], ["A", "B"], ["1", "2"]] "Lat" "Long" 1 none =
      .error .missingColumn ∧
    runGenerate fsMiss "f" "g" "Lat" "Long" 1 none = .error .missingColumn :=
  (claim_C6_missing_column fsMiss "f" "g" "Lat" "Long" 1 none
    [["x", "y"], ["A", "B"], ["1", "2"]] 2 [["A", "B"], ["1", "2"]] 0
    rfl rfl rfl).1 (by decide)

/-- C7 counterexample: the claim says the written bytes of each line equal
the assembled string exactly, for every input.  On a label value containing
a double quote the `to_csv` writer (QUOTE_NONE with an escape character)
inserts a backslash: the written content differs from the plain
newline-joined assembled lines. -/
theorem claim_C7_counterexample :
    csv_to_gee_points [["a", "b", "c"], ["Lat", "Long", "Nm"],
      ["1", "2", "x\"y"]] "Lat" "Long" 1 (some "Nm") =
      .ok ["var x\"y = ee.Geometry.Point([2,1]);"] ∧
    renderFile ["var x\"y = ee.Geometry.Point([2,1]);"] ≠
      String.join (List.map (fun l => l ++ "\n")
        ["var x\"y = ee.Geometry.Point([2,1]);"]) :=
  ⟨rfl, by decide⟩

/-- C7 (amended): provided the resolved header does not contain two or more
columns named `points_def`, the output file is the assembled lines each
terminated by a newline, with no header line and no quoting; the written
bytes of a line equal the assembled string exactly whenever the line
contains none of the characters the QUOTE_NONE writer escapes (newline,
double quote, backslash — carriage returns are written unescaped).  Lines
containing one of those three characters get each occurrence prefixed by a
backslash, and with duplicated `points_def` columns each line is written
once per column. -/
theorem claim_C7_no_escaping_amended (fs : String → Option FileData)
    (csvFile outFile latCol lonCol : String) (k : Nat) (pc : Option String)
    (fs' : String → Option FileData) (t : List (List String)) (w : Nat)
    (body : List (List String)) (i : Nat) (lines : List String)
    (hrun : runGenerate fs csvFile outFile latCol lonCol k pc = .ok fs')
    (hsrc : fs csvFile = some (FileData.table t))
    (hread : readCsv t = .ok (w, body))
    (hidx : headerIdx body.length k = .ok i)
    (hgen : csv_to_gee_points t latCol lonCol k pc = .ok lines)
    (hdup : (colMatches (resolvedHeader w body i) "points_def").length ≤ 1)
    (hplain : ∀ l ∈ lines, ∀ c ∈ l.data,
      ¬(c = '\n' ∨ c = '"' ∨ c = '\\')) :
    fs' outFile = some (FileData.text
      (String.join (lines.map (fun l => l ++ "\n")))) := by
  obtain ⟨t2, recs2, hsrc2, hwr2, hfs2⟩ := runGenerate_ok_elim hrun
  rw [hsrc] at hsrc2
  simp only [Option.some.injEq, FileData.table.injEq] at hsrc2
  subst hsrc2
  have hw2 := writtenLines_eq_parts hread hidx hgen
  rw [hwr2] at hw2
  simp only [Except.ok.injEq] at hw2
  have hone : pointsDefCopies (resolvedHeader w body i) = 1 := by
    unfold pointsDefCopies
    omega
  rw [hone, repeatEach_one] at hw2
  have hw3 : lines = recs2 := hw2.symm
  subst hw3
  subst hfs2
  have hrf : renderFile lines = String.join (lines.map (fun l => l ++ "\n")) := by
    unfold renderFile
    congr 1
    apply List.map_congr_left
    intro l hl
    rw [csvEscape_plain (hplain l hl)]
  simp [hrf]

/-- C7 witness: a run whose single output line contains no escaped
characters writes exactly that line followed by a newline. -/
theorem claim_C7_no_escaping_amended_witness :
    fsB' "out" = some (FileData.text
      (String.join (linesB.map (fun l => l ++ "\n")))) :=
  claim_C7_no_escaping_amended fsB "in" "out" "Lat" "Long" 1 none fsB'
    tableB 2 [["Lat", "Long"], ["45,1", "7,2"]] 0 linesB
    rfl rfl rfl rfl rfl (by decide) (by decide)

/-- C8 counterexample: the claim says every successful run leaves the source
file unchanged.  A run whose output path equals the source path succeeds and
overwrites the source: afterwards the path holds the rendered text, not the
original table. -/
theorem claim_C8_counterexample :
    runGenerate fsSame "f" "f" "Lat" "Long" 1 none = .ok fsSame' ∧
    fsSame' "f" ≠ fsSame "f" :=
  ⟨rfl, by decide⟩

/-- C8 (amended): in every successful run, exactly the output path is
written (it receives the rendered records and every other path is
unchanged), and provided the output path differs from the source path the
source file is left unchanged. -/
theorem claim_C8_frame_amended (fs : String → Option FileData)
    (csvFile outFile latCol lonCol : String) (k : Nat) (pc : Option String)
    (fs' : String → Option FileData) (t : List (List String))
    (lines : List String)
    (hrun : runGenerate fs csvFile outFile latCol lonCol k pc = .ok fs')
    (hsrc : fs csvFile = some (FileData.table t))
    (hwr : writtenLines t latCol lonCol k pc = .ok lines)
    (hne : csvFile ≠ outFile) :
    fs' outFile = some (FileData.text (renderFile lines)) ∧
    fs' csvFile = fs csvFile ∧
    ∀ p, p ≠ outFile → fs' p = fs p := by
  obtain ⟨t2, lines2, hsrc2, hwr2, hfs2⟩ := runGenerate_ok_elim hrun
  rw [hsrc] at hsrc2
  simp only [Option.some.injEq, FileData.table.injEq] at hsrc2
  subst hsrc2
  rw [hwr] at hwr2
  simp only [Except.ok.injEq] at hwr2
  subst hwr2
  subst hfs2
  refine ⟨by simp, ?_, ?_⟩
  · simp only []
    rw [if_neg hne]
  · intro p hp
    simp only []
    rw [if_neg hp]

/-- C8 witness: a concrete run with distinct source and output paths writes
the output path, leaves the source path unchanged, and leaves an unrelated
path unchanged. -/
theorem claim_C8_frame_amended_witness :
    fsB' "out" = some (FileData.text (renderFile linesB)) ∧
    fsB' "in" = fsB "in" ∧ fsB' "zzz" = fsB "zzz" := by
  have h := claim_C8_frame_amended fsB "in" "out" "Lat" "Long" 1 none fsB'
    tableB linesB rfl rfl rfl (by decide)
  exact ⟨h.1, h.2.1, h.2.2 "zzz" (by decide)⟩

/-- C9: the comma-to-dot replacement is unconditional and performs no
numeric validation: a latitude value `1,2,3` is emitted as `1.2.3` and a
non-numeric longitude value `x,y5` passes through as `x.y5` (concrete run),
and in general the replacement preserves the length and, character by
character, turns every comma into a dot and leaves every other character
exactly as it was. -/
theorem claim_C9_comma_replacement :
    csv_to_gee_points [["h1", "h2"], ["Lat", "Long"], ["1,2,3", "x,y5"]]
      "Lat" "Long" 1 none =
      .ok ["var point_0 = ee.Geometry.Point([x.y5,1.2.3]);"] ∧
    ∀ s : String,
      (replaceCommaWithDot s).length = s.length ∧
      ∀ i : Nat, i < s.data.length →
        (replaceCommaWithDot s).data.getD i ' ' =
          (if s.data.getD i ' ' = ',' then '.' else s.data.getD i ' ') := by
  have aux : ∀ (l : List Char) (i : Nat), i < l.length →
      (l.map (fun c => if c = ',' then '.' else c)).getD i ' ' =
        (if l.getD i ' ' = ',' then '.' else l.getD i ' ') := by
    intro l
    induction l with
    | nil => intro i hi; simp at hi
    | cons a l ih =>
      intro i hi
      cases i with
      | zero => rfl
      | succ i =>
        simp only [List.map_cons, List.getD_cons_succ]
        exact ih i (by simp at hi; omega)
  refine ⟨rfl, ?_⟩
  intro s
  have hdata : (replaceCommaWithDot s).data =
      s.data.map (fun c => if c = ',' then '.' else c) := rfl
  refine ⟨?_, ?_⟩
  · show (replaceCommaWithDot s).data.length = s.data.length
    rw [hdata, List.length_map]
  · intro i hi
    rw [hdata]
    exact aux s.data i hi

/-- C9 witness: the character-level replacement facts evaluated on the
value `1,2,3` at position 1 (a comma, which becomes a dot). -/
theorem claim_C9_comma_replacement_witness :
    (replaceCommaWithDot "1,2,3").length = ("1,2,3" : String).length ∧
    (replaceCommaWithDot "1,2,3").data.getD 1 ' ' =
      (if ("1,2,3" : String).data.getD 1 ' ' = ','
       then '.' else ("1,2,3" : String).data.getD 1 ' ') :=
  ⟨(claim_C9_comma_replacement.2 "1,2,3").1,
   (claim_C9_comma_replacement.2 "1,2,3").2 1 (by decide)⟩

/-- C10: a successful run requires the matched latitude and longitude
columns to be object-dtype (string-carried) columns: `colNumeric` is false
for both.  Conversely, on a file whose coordinate fields are already
dot-decimal numerals (and, offset 0 being the default, no header text
protects the column from coercion) the columns are numerically coerced and
the run aborts inside the normalization step with no output file written. -/
theorem claim_C10_string_dtype :
    (∀ (file : List (List String)) (latCol lonCol : String) (k : Nat)
      (pc : Option String) (out : List String) (w : Nat)
      (body : List (List String)) (i latIdx lonIdx : Nat),
      csv_to_gee_points file latCol lonCol k pc = .ok out →
      readCsv file = .ok (w, body) →
      headerIdx body.length k = .ok i →
      findCol (resolvedHeader w body i) latCol = .ok latIdx →
      findCol (resolvedHeader w body i) lonCol = .ok lonIdx →
      colNumeric body latIdx = false ∧ colNumeric body lonIdx = false) ∧
    colNumeric [["45.1", "7.2"]] 0 = true ∧
    colNumeric [["45.1", "7.2"]] 1 = true ∧
    csv_to_gee_points [["Lat", "Long"], ["45.1", "7.2"]] "Lat" "Long" 0 none =
      .error .missingColumn ∧
    runGenerate fsNum "f" "g" "Lat" "Long" 0 none = .error .missingColumn := by
  refine ⟨?_, by decide, by decide, rfl, rfl⟩
  intro file latCol lonCol k pc out w body i latIdx lonIdx hgen hread hidx
    hlat hlon
  exact ⟨findCol_flag hlat, findCol_flag hlon⟩

/-- C10 witness: a successful concrete run whose matched columns are indeed
non-numeric (string-carried). -/
theorem claim_C10_string_dtype_witness :
    colNumeric [["Lat", "Long"], ["45,1", "7,2"]] 0 = false ∧
    colNumeric [["Lat", "Long"], ["45,1", "7,2"]] 1 = false :=
  claim_C10_string_dtype.1 [["x", "y"], ["Lat", "Long"], ["45,1", "7,2"]]
    "Lat" "Long" 1 none ["var point_0 = ee.Geometry.Point([7.2,45.1]);"]
    2 [["Lat", "Long"], ["45,1", "7,2"]] 0 0 1 rfl rfl rfl rfl rfl

end CsvToGee
